import Mathlib

/-!
Verification of the runtime telemetry aggregator (`performanceMonitor.ts`,
class `EnhancedPerformanceMonitor`).

Modelling conventions: JS numbers carrying durations, averages and memory
usage are modelled as exact rationals; timestamps (`Date.now()`) as natural
numbers. Environment inputs (current time, current memory usage, the
captured call stack text) become explicit parameters of the operations that
read them. `Array.prototype.sort` with a numeric comparator is a stable
sort, modelled by `List.insertionSort` (stable for the same total
preorder). The JS float literals `0.7`, `0.1`, `1.1`, `0.9` denote, at the
integer scales used by the program, the exact values `7/10`, `1/10`,
`11/10`, `9/10`, which is how they are written below.
-/

namespace PerfMon

/-- One performance sample (source interface `PerformanceMetrics`). -/
structure Metric where
  renderTime : ℚ
  componentName : String
  propsHash : String
  timestamp : Nat
  sessionId : String
  memoryUsage : Option ℚ
  callStack : Option String
  isSlowRender : Bool
  deriving DecidableEq, Repr

/-- One memory reading pushed by the memory monitoring interval body. -/
structure MemoryReading where
  timestamp : Nat
  usage : ℚ
  deriving DecidableEq, Repr

/-- The mutable fields of `EnhancedPerformanceMonitor`. -/
structure MonitorState where
  metrics : List Metric
  sessionId : String
  memoryBaseline : Option ℚ
  memoryHistory : List MemoryReading
  deriving DecidableEq, Repr

/-- Source: `private readonly maxMetrics = 500`. -/
def maxMetrics : Nat := 500

/-- Source: `private readonly slowRenderThreshold = 16`. -/
def slowRenderThreshold : ℚ := 16

/-- Source: `private readonly memoryCheckInterval = 10000`. -/
def memoryCheckInterval : Nat := 10000

/-- A fresh monitor; the constructor generates the session id once. -/
def initState (sessionId : String) : MonitorState :=
  { metrics := [], sessionId := sessionId, memoryBaseline := none, memoryHistory := [] }

/-- `xs.slice(-n)` on a JS array: the last `n` elements (all of them when
`n` exceeds the length). -/
def takeLast (n : Nat) (l : List α) : List α := l.drop (l.length - n)

/-- JS falsiness of the optional numeric field `memoryBaseline`:
`undefined` and `0` are falsy, every other number is truthy. -/
def falsy : Option ℚ → Bool
  | none => true
  | some x => x == 0

/-- The sample constructed at the top of `logRender`: the anomaly flag is
`renderTime > slowRenderThreshold` and the call stack is captured only for
slow renders. -/
def mkMetric (st : MonitorState) (componentName : String) (renderTime : ℚ)
    (propsHash : String) (now : Nat) (memNow : Option ℚ) (stackStr : String) : Metric :=
  { renderTime := renderTime
    componentName := componentName
    propsHash := propsHash
    timestamp := now
    sessionId := st.sessionId
    memoryUsage := memNow
    callStack := if renderTime > slowRenderThreshold then some stackStr else none
    isSlowRender := decide (renderTime > slowRenderThreshold) }

/-- The eviction block of `logRender`: concatenate all slow renders with
`metrics.slice(-Math.floor(maxMetrics * 0.7))`, stable-sort ascending by
timestamp, keep the last `maxMetrics` entries. `Math.floor(500 * 0.7)` is
`350`, written `maxMetrics * 7 / 10`. -/
def evict (l : List Metric) : List Metric :=
  let slowRenders := l.filter (fun m => m.isSlowRender)
  let recentMetrics := takeLast (maxMetrics * 7 / 10) l
  takeLast maxMetrics
    (List.insertionSort (fun a b : Metric => a.timestamp ≤ b.timestamp)
      (slowRenders ++ recentMetrics))

/-- `logRender`: push the new sample, then run the eviction block when the
store has grown past `maxMetrics`. The development-mode console logging has
no effect on the state and is not modelled. -/
def logRender (st : MonitorState) (componentName : String) (renderTime : ℚ)
    (propsHash : String) (now : Nat) (memNow : Option ℚ) (stackStr : String) : MonitorState :=
  let metric := mkMetric st componentName renderTime propsHash now memNow stackStr
  let pushed := st.metrics ++ [metric]
  { st with metrics := if pushed.length > maxMetrics then evict pushed else pushed }

/-- Arguments of one `logRender` call together with the environment values
read during it. -/
structure Call where
  componentName : String
  renderTime : ℚ
  propsHash : String
  now : Nat
  memNow : Option ℚ
  stackStr : String

/-- Run a sequence of `logRender` calls. -/
def runCalls (st : MonitorState) : List Call → MonitorState
  | [] => st
  | c :: cs =>
      runCalls (logRender st c.componentName c.renderTime c.propsHash c.now c.memNow c.stackStr) cs

/-- The body of the `setInterval` callback in `startMemoryMonitoring`: set
the baseline when it is falsy, push the reading, keep only the last 50
readings. The console warning on a memory spike has no effect on the
state. -/
def memoryTick (st : MonitorState) (now : Nat) (usage : ℚ) : MonitorState :=
  let memoryBaseline := if falsy st.memoryBaseline then some usage else st.memoryBaseline
  let pushed := st.memoryHistory ++ [{ timestamp := now, usage := usage }]
  { st with
      memoryBaseline := memoryBaseline
      memoryHistory := if pushed.length > 50 then takeLast 50 pushed else pushed }

/-- Run a sequence of memory sampler ticks, each given as a
(time, usage) pair. -/
def runTicks (st : MonitorState) : List (Nat × ℚ) → MonitorState
  | [] => st
  | p :: ps => runTicks (memoryTick st p.1 p.2) ps

/-- `getMetrics` returns a defensive copy of the store; copies are
identities under value semantics. -/
def getMetrics (st : MonitorState) : List Metric := st.metrics

/-- `getComponentMetrics`. -/
def getComponentMetrics (st : MonitorState) (componentName : String) : List Metric :=
  st.metrics.filter (fun m => m.componentName == componentName)

/-- The three-valued memory trend of `getInsights`. -/
inductive MemoryTrend where
  | stable
  | increasing
  | decreasing
  deriving DecidableEq, Repr

/-- One entry of `componentHotspots`. -/
structure Hotspot where
  component : String
  averageTime : ℚ
  count : Nat
  deriving DecidableEq, Repr

/-- The record returned by `getInsights` (source interface
`PerformanceInsights`). -/
structure Insights where
  slowRenders : List Metric
  averageRenderTime : ℚ
  totalRenders : Nat
  memoryTrend : MemoryTrend
  componentHotspots : List Hotspot
  recommendations : List String
  deriving DecidableEq, Repr

/-- One step of the `reduce` that builds `componentStats`: a JS object with
string keys enumerates its entries in insertion order, so it is modelled as
an association list of (component, total, count) triples to which new keys
are appended. -/
def statStep (acc : List (String × ℚ × Nat)) (m : Metric) : List (String × ℚ × Nat) :=
  if acc.any (fun p => p.1 == m.componentName) then
    acc.map (fun p =>
      if p.1 == m.componentName then (p.1, p.2.1 + m.renderTime, p.2.2 + 1) else p)
  else
    acc ++ [(m.componentName, m.renderTime, 1)]

/-- `componentStats`: per-component running total and count, in insertion
order of each component's first occurrence. -/
def componentStats (l : List Metric) : List (String × ℚ × Nat) := l.foldl statStep []

/-- `componentHotspots`: map the stats to (component, average, count),
stable-sort descending by average (the JS comparator
`(a, b) => b.averageTime - a.averageTime`), take the top 5. -/
def hotspotsOf (l : List Metric) : List Hotspot :=
  (List.insertionSort (fun a b : Hotspot => b.averageTime ≤ a.averageTime)
    ((componentStats l).map (fun p =>
      { component := p.1, averageTime := p.2.1 / (p.2.2 : ℚ), count := p.2.2 }))).take 5

/-- The memory trend block of `getInsights`: needs at least 10 readings;
compares the mean of `slice(-5)` against the mean of `slice(-10, -5)`
scaled by `1.1` and `0.9`. -/
def memoryTrendOf (h : List MemoryReading) : MemoryTrend :=
  if h.length ≥ 10 then
    let recent := takeLast 5 h
    let older := (takeLast 10 h).take 5
    let recentAvg := ((recent.map (fun r => r.usage)).sum) / (recent.length : ℚ)
    let olderAvg := ((older.map (fun r => r.usage)).sum) / (older.length : ℚ)
    if recentAvg > olderAvg * (11 / 10) then MemoryTrend.increasing
    else if recentAvg < olderAvg * (9 / 10) then MemoryTrend.decreasing
    else MemoryTrend.stable
  else MemoryTrend.stable

/-- Recommendation emitted by the anomaly-ratio rule. -/
def recAnomaly : String := "Consider optimizing components with React.memo() or useMemo()"

/-- Recommendation emitted by the specific-hotspot rule. -/
def recHotspot (component : String) : String :=
  "Focus optimization on " ++ component ++ " component"

/-- Recommendation emitted by the memory-leak rule. -/
def recMemory : String := "Memory usage is increasing - check for memory leaks"

/-- Recommendation emitted by the general-performance rule. -/
def recGeneral : String := "Overall render performance could be improved"

/-- `getInsights`: aggregate statistics, hotspots, memory trend and the
four recommendation rules, evaluated in the fixed source order. -/
def getInsights (st : MonitorState) : Insights :=
  let slowRenders := st.metrics.filter (fun m => m.isSlowRender)
  let totalRenders := st.metrics.length
  let averageRenderTime : ℚ :=
    if totalRenders > 0 then ((st.metrics.map (fun m => m.renderTime)).sum) / (totalRenders : ℚ)
    else 0
  let componentHotspots := hotspotsOf st.metrics
  let memoryTrend := memoryTrendOf st.memoryHistory
  let recommendations :=
    (if (slowRenders.length : ℚ) > (totalRenders : ℚ) * (1 / 10) then [recAnomaly] else []) ++
    (match componentHotspots with
      | h0 :: _ => if h0.averageTime > 20 then [recHotspot h0.component] else []
      | [] => []) ++
    (if memoryTrend = MemoryTrend.increasing then [recMemory] else []) ++
    (if averageRenderTime > 10 then [recGeneral] else [])
  { slowRenders := slowRenders
    averageRenderTime := averageRenderTime
    totalRenders := totalRenders
    memoryTrend := memoryTrend
    componentHotspots := componentHotspots
    recommendations := recommendations }

/-- `clear`: empty the store and the memory history, unset the baseline. -/
def clear (st : MonitorState) : MonitorState :=
  { st with metrics := [], memoryHistory := [], memoryBaseline := none }

/-- `optimizeMemory`: keep only slow renders and samples from the last five
minutes, truncated to the last 200; trim the memory history to the last
20. -/
def optimizeMemory (st : MonitorState) (now : Nat) : MonitorState :=
  let criticalMetrics :=
    st.metrics.filter (fun m => m.isSlowRender || decide (now - m.timestamp < 300000))
  { st with
      metrics := takeLast 200 criticalMetrics
      memoryHistory := takeLast 20 st.memoryHistory }

/-- Serialized JSON values, for the object built by `exportMetrics`.
`JSON.stringify` omits keys whose value is `undefined`. Numbers are the
programs rationals. -/
inductive Json where
  | null : Json
  | bool : Bool → Json
  | num : ℚ → Json
  | str : String → Json
  | arr : List Json → Json
  | obj : List (String × Json) → Json

/-- Key list of a serialized object. -/
def Json.keys : Json → List String
  | Json.obj fs => fs.map (fun p => p.1)
  | _ => []

/-- Field access on a deserialized object. -/
def Json.getField (j : Json) (k : String) : Option Json :=
  match j with
  | Json.obj fs => (fs.find? (fun p => p.1 == k)).map (fun p => p.2)
  | _ => none

/-- Serialization of one sample; `memoryUsage` and `callStack` are omitted
when `undefined`. -/
def metricJson (m : Metric) : Json :=
  Json.obj
    ([("renderTime", Json.num m.renderTime),
      ("componentName", Json.str m.componentName),
      ("propsHash", Json.str m.propsHash),
      ("timestamp", Json.num (m.timestamp : ℚ)),
      ("sessionId", Json.str m.sessionId)] ++
     (match m.memoryUsage with
      | some u => [("memoryUsage", Json.num u)]
      | none => []) ++
     (match m.callStack with
      | some c => [("callStack", Json.str c)]
      | none => []) ++
     [("isSlowRender", Json.bool m.isSlowRender)])

/-- Serialization of one memory reading. -/
def memoryReadingJson (r : MemoryReading) : Json :=
  Json.obj [("timestamp", Json.num (r.timestamp : ℚ)), ("usage", Json.num r.usage)]

/-- Serialization of the memory trend. -/
def trendJson : MemoryTrend → Json
  | MemoryTrend.stable => Json.str "stable"
  | MemoryTrend.increasing => Json.str "increasing"
  | MemoryTrend.decreasing => Json.str "decreasing"

/-- Serialization of one hotspot entry. -/
def hotspotJson (h : Hotspot) : Json :=
  Json.obj
    [("component", Json.str h.component),
     ("averageTime", Json.num h.averageTime),
     ("count", Json.num (h.count : ℚ))]

/-- Serialization of the insights record. -/
def insightsJson (ins : Insights) : Json :=
  Json.obj
    [("slowRenders", Json.arr (ins.slowRenders.map metricJson)),
     ("averageRenderTime", Json.num ins.averageRenderTime),
     ("totalRenders", Json.num (ins.totalRenders : ℚ)),
     ("memoryTrend", trendJson ins.memoryTrend),
     ("componentHotspots", Json.arr (ins.componentHotspots.map hotspotJson)),
     ("recommendations", Json.arr (ins.recommendations.map Json.str))]

/-- `exportMetrics`: the object passed to `JSON.stringify`, with the
export-time ISO string supplied by the environment. -/
def exportMetrics (st : MonitorState) (exportTime : String) : Json :=
  Json.obj
    [("metrics", Json.arr (st.metrics.map metricJson)),
     ("insights", insightsJson (getInsights st)),
     ("memoryHistory", Json.arr (st.memoryHistory.map memoryReadingJson)),
     ("sessionId", Json.str st.sessionId),
     ("exportTime", Json.str exportTime)]

/-! Specification-side definitions, written from the words of the claims
under check, to be compared with the code-side functions above. -/

/-- Remove duplicates from a list, keeping the first occurrence of each
element. -/
def dedupKeepFirst {α : Type} [DecidableEq α] : List α → List α
  | [] => []
  | a :: l => a :: (dedupKeepFirst l).filter (fun b => decide (b ≠ a))

/-- Eviction exactly as the claim words it: the union of all anomalous
samples with the most recent floor(0.7 * maxCapacity) samples by timestamp,
with duplicates removed so no sample appears twice, sorted ascending by
timestamp, truncated to the most recent maxCapacity entries. -/
def evictSpecClaim (l : List Metric) : List Metric :=
  let anomalous := l.filter (fun m => m.isSlowRender)
  let recentByTimestamp :=
    takeLast (maxMetrics * 7 / 10)
      (List.insertionSort (fun a b : Metric => a.timestamp ≤ b.timestamp) l)
  takeLast maxMetrics
    (List.insertionSort (fun a b : Metric => a.timestamp ≤ b.timestamp)
      (dedupKeepFirst (anomalous ++ recentByTimestamp)))

/-- Eviction as the amended claim words it: concatenate all anomalous
samples with the most recent floor(0.7 * maxCapacity) samples by position,
keeping duplicates, stable-sort ascending by timestamp, keep the most
recent maxCapacity entries. -/
def evictAmendedSpec (l : List Metric) : List Metric :=
  let anomalous := l.filter (fun m => m.isSlowRender)
  let recentByPosition := takeLast (maxMetrics * 7 / 10) l
  takeLast maxMetrics
    (List.insertionSort (fun a b : Metric => a.timestamp ≤ b.timestamp)
      (anomalous ++ recentByPosition))

/-- Total duration recorded for one subject. -/
def sumDur (l : List Metric) (c : String) : ℚ :=
  ((l.filter (fun m => m.componentName == c)).map (fun m => m.renderTime)).sum

/-- Number of samples recorded for one subject. -/
def cntSubj (l : List Metric) (c : String) : Nat :=
  (l.filter (fun m => m.componentName == c)).length

/-- The per-subject statistics as the claim describes them: subjects in
insertion order of first occurrence, each with its total duration and
sample count. -/
def statsOfSpec (l : List Metric) : List (String × ℚ × Nat) :=
  (dedupKeepFirst (l.map (fun m => m.componentName))).map
    (fun c => (c, sumDur l c, cntSubj l c))

/-- Hotspots as the claim describes them: the per-subject groups with their
average duration and sample count, stable-sorted descending by average so
that ties keep first-occurrence order, truncated to the top 5. -/
def hotspotsClaim (l : List Metric) : List Hotspot :=
  (List.insertionSort (fun a b : Hotspot => b.averageTime ≤ a.averageTime)
    ((dedupKeepFirst (l.map (fun m => m.componentName))).map
      (fun c =>
        { component := c
          averageTime := sumDur l c / (cntSubj l c : ℚ)
          count := cntSubj l c }))).take 5

/-- Arithmetic mean of a list of rationals (zero on the empty list, since
division by zero is zero in ℚ). -/
def meanQ (l : List ℚ) : ℚ := l.sum / (l.length : ℚ)

/-- The usage values of the most recent 5 memory readings. -/
def recentUsages (h : List MemoryReading) : List ℚ :=
  (takeLast 5 h).map (fun r => r.usage)

/-- The usage values of the 5 readings preceding the most recent 5. -/
def olderUsages (h : List MemoryReading) : List ℚ :=
  ((takeLast 10 h).take 5).map (fun r => r.usage)

/-- The recommendation list as the claim describes it: four independent
rules in fixed order, each contributing zero or one entry. -/
def recsClaim (ins : Insights) : List String :=
  (if (ins.slowRenders.length : ℚ) > (ins.totalRenders : ℚ) * (1 / 10) then [recAnomaly]
   else []) ++
  (match ins.componentHotspots with
    | h0 :: _ => if h0.averageTime > 20 then [recHotspot h0.component] else []
    | [] => []) ++
  (if ins.memoryTrend = MemoryTrend.increasing then [recMemory] else []) ++
  (if ins.averageRenderTime > 10 then [recGeneral] else [])

/-! Concrete stores and histories used as counterexamples and witnesses. -/

/-- A directly constructed sample with fixed fingerprint and session id. -/
def sampleM (c : String) (rt : ℚ) (ts : Nat) (slow : Bool) : Metric :=
  { renderTime := rt, componentName := c, propsHash := "p", timestamp := ts,
    sessionId := "s", memoryUsage := none, callStack := none, isSlowRender := slow }

/-- 500 distinct non-anomalous samples with increasing timestamps. -/
def c2Pre : List Metric :=
  (List.range maxMetrics).map (fun (i : Nat) => sampleM "A" 1 i false)

/-- A full store about to receive one more call. -/
def c2St : MonitorState :=
  { metrics := c2Pre, sessionId := "s", memoryBaseline := none, memoryHistory := [] }

/-- The anomalous sample constructed by the 501st call. -/
def c2New : Metric := mkMetric c2St "A" 20 "p" 500 none "stack"

/-- The pre-eviction sample sequence of the 501st call. -/
def c2l : List Metric := c2Pre ++ [c2New]

/-- An anomalous sample distinguishable from all the others. -/
def c3a : Metric := sampleM "A0" 17 0 true

/-- A full store holding 151 anomalous and 349 non-anomalous samples, all
with the same timestamp. -/
def c3Pre : List Metric :=
  c3a :: (List.replicate 150 (sampleM "A" 17 0 true) ++
    List.replicate 349 (sampleM "B" 1 0 false))

/-- The monitor holding `c3Pre`. -/
def c3St : MonitorState :=
  { metrics := c3Pre, sessionId := "s", memoryBaseline := none, memoryHistory := [] }

/-- The non-anomalous sample constructed by the 501st call. -/
def c3New : Metric := mkMetric c3St "B" 1 "p" 0 none "cs"

/-- The pre-eviction sample sequence of the 501st call. -/
def c3l : List Metric := c3Pre ++ [c3New]

/-- The store after the eviction triggered by the 501st call. -/
def c3Result : List Metric := (logRender c3St "B" 1 "p" 0 none "cs").metrics

/-- A two-sample store with durations 4 and 6. -/
def c4St : MonitorState :=
  { metrics := [sampleM "A" 4 0 false, sampleM "A" 6 1 false],
    sessionId := "s", memoryBaseline := none, memoryHistory := [] }

/-- Ten readings whose recent mean is exactly 1.1 times the older mean. -/
def c5HistStable : List MemoryReading :=
  [{ timestamp := 0, usage := 100 }, { timestamp := 1, usage := 100 },
   { timestamp := 2, usage := 100 }, { timestamp := 3, usage := 100 },
   { timestamp := 4, usage := 100 }, { timestamp := 5, usage := 110 },
   { timestamp := 6, usage := 110 }, { timestamp := 7, usage := 110 },
   { timestamp := 8, usage := 110 }, { timestamp := 9, usage := 110 }]

/-- Ten readings whose recent mean is 1.11 times the older mean. -/
def c5HistInc : List MemoryReading :=
  [{ timestamp := 0, usage := 100 }, { timestamp := 1, usage := 100 },
   { timestamp := 2, usage := 100 }, { timestamp := 3, usage := 100 },
   { timestamp := 4, usage := 100 }, { timestamp := 5, usage := 111 },
   { timestamp := 6, usage := 111 }, { timestamp := 7, usage := 111 },
   { timestamp := 8, usage := 111 }, { timestamp := 9, usage := 111 }]

/-- A monitor holding the boundary history. -/
def c5StStable : MonitorState :=
  { metrics := [], sessionId := "s", memoryBaseline := none, memoryHistory := c5HistStable }

/-- A monitor holding the just-past-boundary history. -/
def c5StInc : MonitorState :=
  { metrics := [], sessionId := "s", memoryBaseline := none, memoryHistory := c5HistInc }

/-- Subjects A (avg 30, 2 samples), C (avg 25, 1 sample, first occurring
before B) and B (avg 25, 10 samples). -/
def c6Metrics : List Metric :=
  [sampleM "A" 30 0 true, sampleM "A" 30 1 true, sampleM "C" 25 2 true,
   sampleM "B" 25 3 true, sampleM "B" 25 4 true, sampleM "B" 25 5 true,
   sampleM "B" 25 6 true, sampleM "B" 25 7 true, sampleM "B" 25 8 true,
   sampleM "B" 25 9 true, sampleM "B" 25 10 true, sampleM "B" 25 11 true,
   sampleM "B" 25 12 true]

/-- The monitor holding `c6Metrics`. -/
def c6St : MonitorState :=
  { metrics := c6Metrics, sessionId := "s", memoryBaseline := none, memoryHistory := [] }

/-- A state in which all four recommendation rules fire: two anomalous
samples of subject X with average 25, and an increasing memory history. -/
def c7St : MonitorState :=
  { metrics := [sampleM "X" 25 0 true, sampleM "X" 25 1 true],
    sessionId := "s", memoryBaseline := none,
    memoryHistory :=
      [{ timestamp := 0, usage := 100 }, { timestamp := 1, usage := 100 },
       { timestamp := 2, usage := 100 }, { timestamp := 3, usage := 100 },
       { timestamp := 4, usage := 100 }, { timestamp := 5, usage := 200 },
       { timestamp := 6, usage := 200 }, { timestamp := 7, usage := 200 },
       { timestamp := 8, usage := 200 }, { timestamp := 9, usage := 200 }] }

end PerfMon

namespace PerfMon

/-! Helper lemmas. -/

theorem length_takeLast_le (n : Nat) (l : List α) : (takeLast n l).length ≤ n := by
  simp only [takeLast, List.length_drop]
  omega

theorem evict_length_le (l : List Metric) : (evict l).length ≤ maxMetrics :=
  length_takeLast_le _ _

theorem logRender_metrics (st : MonitorState) (c : String) (rt : ℚ) (ph : String)
    (now : Nat) (mem : Option ℚ) (cs : String) :
    (logRender st c rt ph now mem cs).metrics =
      if (st.metrics ++ [mkMetric st c rt ph now mem cs]).length > maxMetrics then
        evict (st.metrics ++ [mkMetric st c rt ph now mem cs])
      else st.metrics ++ [mkMetric st c rt ph now mem cs] := rfl

theorem logRender_length_le (st : MonitorState) (c : String) (rt : ℚ) (ph : String)
    (now : Nat) (mem : Option ℚ) (cs : String) :
    (logRender st c rt ph now mem cs).metrics.length ≤ maxMetrics := by
  rw [logRender_metrics]
  split
  · exact evict_length_le _
  · next h => omega

theorem runCalls_length_le (calls : List Call) (st : MonitorState)
    (h : st.metrics.length ≤ maxMetrics) :
    (runCalls st calls).metrics.length ≤ maxMetrics := by
  induction calls generalizing st with
  | nil => exact h
  | cons c cs ih => exact ih _ (logRender_length_le _ _ _ _ _ _ _)

theorem runTicks_baseline_stable (l : List (Nat × ℚ)) (st : MonitorState) (u : ℚ)
    (hb : st.memoryBaseline = some u) (hu : u ≠ 0) :
    (runTicks st l).memoryBaseline = some u := by
  induction l generalizing st with
  | nil => exact hb
  | cons p ps ih =>
      apply ih
      show (if falsy st.memoryBaseline then some p.2 else st.memoryBaseline) = some u
      rw [hb]
      simp [falsy, hu]

/-! Claim theorems. -/

/-- C1: for every sequence of `logRender` calls starting from the empty
store, after each call the number of stored samples is at most
`maxMetrics` (500). Every prefix of a call sequence is itself a call
sequence, so the statement covers the store size after each call. -/
theorem C1_capacity_invariant (sid : String) (calls : List Call) :
    (runCalls (initState sid) calls).metrics.length ≤ maxMetrics :=
  runCalls_length_le calls (initState sid) (by simp [initState])

/-- C4: `averageRenderTime` is 0 on the empty store, and on a non-empty
store it is the arithmetic mean of the stored durations, characterized
without division as average times size equals total. -/
theorem C4_average_correctness (st : MonitorState) :
    (st.metrics = [] → (getInsights st).averageRenderTime = 0) ∧
    (st.metrics ≠ [] →
      (getInsights st).averageRenderTime * (st.metrics.length : ℚ) =
        ((st.metrics.map (fun m => m.renderTime)).sum)) := by
  constructor
  · intro h
    simp [getInsights, h]
  · intro h
    have hlen : 0 < st.metrics.length := List.length_pos.mpr h
    have hne : ((st.metrics.length : ℚ)) ≠ 0 :=
      Nat.cast_ne_zero.mpr (Nat.pos_iff_ne_zero.mp hlen)
    have havg : (getInsights st).averageRenderTime =
        ((st.metrics.map (fun m => m.renderTime)).sum) / (st.metrics.length : ℚ) := by
      show (if st.metrics.length > 0 then
          ((st.metrics.map (fun m => m.renderTime)).sum) / (st.metrics.length : ℚ)
        else 0) = _
      rw [if_pos hlen]
    rw [havg, div_mul_cancel₀ _ hne]

/-- C4 witness: the empty store reports average 0, and a store holding
durations 4 and 6 satisfies average times size equals total. -/
theorem C4_average_witness :
    (getInsights (initState "s")).averageRenderTime = 0 ∧
    (getInsights c4St).averageRenderTime * ((c4St.metrics.length : Nat) : ℚ) =
      ((c4St.metrics.map (fun m => m.renderTime)).sum) :=
  ⟨(C4_average_correctness (initState "s")).1 rfl,
   (C4_average_correctness c4St).2 (by decide)⟩

/-- C8 counterexample: at a concrete collector state, the exported object
has no field named `samples`; the raw-sample field is named `metrics`. -/
theorem C8_export_cex :
    ((exportMetrics (initState "s") "2024-01-01T00:00:00.000Z").keys.contains "samples") = false ∧
    (exportMetrics (initState "s") "2024-01-01T00:00:00.000Z").keys =
      ["metrics", "insights", "memoryHistory", "sessionId", "exportTime"] :=
  ⟨rfl, rfl⟩

/-- C8 amended: for every collector state the exported object has exactly
the fields `metrics`, `insights`, `memoryHistory`, `sessionId` and
`exportTime`; reading its `metrics` field yields the serialized store,
whose length is the store size at export time, and reading `sessionId`
yields the live session id. -/
theorem C8_export_amended (st : MonitorState) (t : String) :
    (exportMetrics st t).keys =
      ["metrics", "insights", "memoryHistory", "sessionId", "exportTime"] ∧
    (exportMetrics st t).getField "metrics" = some (Json.arr (st.metrics.map metricJson)) ∧
    (st.metrics.map metricJson).length = st.metrics.length ∧
    (exportMetrics st t).getField "sessionId" = some (Json.str st.sessionId) :=
  ⟨rfl, rfl, List.length_map _ _, rfl⟩

/-- C9: after `clear` the store and memory history are empty, the baseline
is unset so the next tick re-establishes it, the session id is unchanged,
and a second `clear` leaves the state identical. -/
theorem C9_clear_idempotent (st : MonitorState) (now : Nat) (usage : ℚ) :
    (clear st).metrics = [] ∧
    getMetrics (clear st) = [] ∧
    (getInsights (clear st)).totalRenders = 0 ∧
    (clear st).memoryHistory = [] ∧
    (clear st).memoryBaseline = none ∧
    (clear st).sessionId = st.sessionId ∧
    clear (clear st) = clear st ∧
    (memoryTick (clear st) now usage).memoryBaseline = some usage :=
  ⟨rfl, rfl, rfl, rfl, rfl, rfl, rfl, rfl⟩

/-- C10 counterexample: when the first reading has usage 0, the second tick
overwrites the baseline, because the source tests the baseline for JS
falsiness and 0 is falsy. -/
theorem C10_baseline_cex :
    (runTicks (initState "s") [(0, 0), (1, 5)]).memoryBaseline = some 5 ∧
    decide ((runTicks (initState "s") [(0, 0), (1, 5)]).memoryBaseline = some 0) = false :=
  ⟨rfl, by decide⟩

/-- C10 amended: the first reading becomes the baseline and, as long as its
usage value is non-zero, no later tick overwrites it; a zero baseline is
re-established by the next tick instead. -/
theorem C10_baseline_amended (sid : String) (t : Nat) (u : ℚ) (rest : List (Nat × ℚ))
    (hu : u ≠ 0) :
    (runTicks (initState sid) ((t, u) :: rest)).memoryBaseline = some u := by
  show (runTicks (memoryTick (initState sid) t u) rest).memoryBaseline = some u
  exact runTicks_baseline_stable rest _ u rfl hu

/-- C10 witness: a first reading of 7 survives a later reading of 3. -/
theorem C10_baseline_witness :
    (runTicks (initState "s") [(0, 7), (1, 3)]).memoryBaseline = some 7 :=
  C10_baseline_amended "s" 0 7 [(1, 3)] (by decide)

end PerfMon

namespace PerfMon

set_option maxRecDepth 100000

set_option maxHeartbeats 800000

/-! Nodup lemmas for the deduplicating eviction of the claim. -/

theorem nodup_dedupKeepFirst {α : Type} [DecidableEq α] (l : List α) :
    (dedupKeepFirst l).Nodup := by
  induction l with
  | nil => exact List.nodup_nil
  | cons a l ih =>
      refine List.nodup_cons.mpr ⟨?_, ih.filter _⟩
      intro hmem
      have h := (List.mem_filter.mp hmem).2
      simp at h

theorem nodup_evictSpecClaim (l : List Metric) : (evictSpecClaim l).Nodup := by
  unfold evictSpecClaim takeLast
  have h1 :
      (dedupKeepFirst (l.filter (fun m => m.isSlowRender) ++
        (List.insertionSort (fun a b : Metric => a.timestamp ≤ b.timestamp) l).drop
          ((List.insertionSort (fun a b : Metric => a.timestamp ≤ b.timestamp) l).length -
            maxMetrics * 7 / 10))).Nodup := nodup_dedupKeepFirst _
  have h2 := ((List.perm_insertionSort
      (fun a b : Metric => a.timestamp ≤ b.timestamp) _).nodup_iff).mpr h1
  exact h2.sublist (List.drop_sublist _ _)

/-- C2 counterexample: on a full store of 500 distinct non-anomalous
samples, the 501st call records an anomalous sample; the code keeps that
sample twice (it is both a slow render and among the most recent 350),
while the eviction described by the claim removes duplicates, so the
resulting store differs from the claimed one. -/
theorem C2_eviction_cex :
    ((logRender c2St "A" 20 "p" 500 none "stack").metrics = evictSpecClaim c2l) = False := by
  have hdup : (logRender c2St "A" 20 "p" 500 none "stack").metrics.count c2New = 2 := by
    decide
  have hnd : ∀ x : Metric, (evictSpecClaim c2l).count x ≤ 1 :=
    List.nodup_iff_count_le_one.mp (nodup_evictSpecClaim c2l)
  apply eq_false
  intro h
  rw [h] at hdup
  have hone := hnd c2New
  omega

/-- C2 amended: when a record call overflows the store, the new store is
the concatenation of all anomalous samples with the most recent
floor(0.7 x maxCapacity) samples by position — duplicates kept, so a
sample lying in both parts appears twice — stable-sorted ascending by
timestamp and truncated to the most recent maxCapacity entries. -/
theorem C2_eviction_amended (st : MonitorState) (c : String) (rt : ℚ) (ph : String)
    (now : Nat) (mem : Option ℚ) (cs : String)
    (h : (st.metrics ++ [mkMetric st c rt ph now mem cs]).length > maxMetrics) :
    (logRender st c rt ph now mem cs).metrics =
      evictAmendedSpec (st.metrics ++ [mkMetric st c rt ph now mem cs]) := by
  rw [logRender_metrics, if_pos h]
  rfl

/-- C2 witness: the 501st call on a full store triggers eviction, and the
resulting store is the amended eviction of the pre-eviction sequence. -/
theorem C2_eviction_amended_witness :
    (logRender c2St "A" 20 "p" 500 none "stack").metrics = evictAmendedSpec c2l :=
  C2_eviction_amended c2St "A" 20 "p" 500 none "stack" (by decide)

/-! Retention order of the eviction. -/

theorem evict_retention (l : List Metric) (a b : Metric)
    (ha : a ∈ l) (haS : a.isSlowRender = true) (hb : b ∈ l) (hbS : b.isSlowRender = false)
    (haOut : a ∉ evict l) (hbIn : b ∈ evict l) :
    a.timestamp ≤ b.timestamp := by
  unfold evict takeLast at haOut hbIn
  set r := fun x y : Metric => x.timestamp ≤ y.timestamp with hr
  set combined := l.filter (fun m => m.isSlowRender) ++
      l.drop (l.length - maxMetrics * 7 / 10) with hcomb
  set sorted := List.insertionSort r combined with hsorted
  set d := sorted.length - maxMetrics with hd
  have hmemA : a ∈ sorted := by
    rw [hsorted, (List.perm_insertionSort r combined).mem_iff, hcomb]
    exact List.mem_append_left _ (List.mem_filter.mpr ⟨ha, haS⟩)
  have hsplit : sorted = sorted.take d ++ sorted.drop d := (List.take_append_drop d sorted).symm
  have hA : a ∈ sorted.take d := by
    rcases List.mem_append.mp (by rw [← hsplit]; exact hmemA) with h | h
    · exact h
    · exact absurd h haOut
  haveI : IsTotal Metric r := ⟨fun x y => Nat.le_total x.timestamp y.timestamp⟩
  haveI : IsTrans Metric r := ⟨fun x y z hxy hyz => Nat.le_trans hxy hyz⟩
  have hsort : List.Pairwise r sorted := List.sorted_insertionSort r combined
  rw [hsplit] at hsort
  exact (List.pairwise_append.mp hsort).2.2 a hA b hbIn

/-- C3 counterexample: with all timestamps equal, the eviction triggered by
the 501st call discards the anomalous sample `c3a` even though
non-anomalous samples of equal (hence equal-or-older) timestamp survive,
and more than 0.3 x maxCapacity of the samples are anomalous. -/
theorem C3_retention_cex :
    c3l.length > maxMetrics ∧
    maxMetrics * 3 / 10 < (c3l.filter (fun m => m.isSlowRender)).length ∧
    c3a ∈ c3l ∧
    c3a.isSlowRender = true ∧
    c3New ∈ c3l ∧
    c3New.isSlowRender = false ∧
    c3New.timestamp ≤ c3a.timestamp ∧
    decide (c3a ∈ c3Result) = false ∧
    c3New ∈ c3Result :=
  ⟨by decide, by decide, by decide, rfl, by decide, rfl, by decide, by decide, by decide⟩

/-- C3 amended: when more than 0.3 x maxCapacity samples are anomalous, an
eviction step triggered by record never discards an anomalous sample while
a non-anomalous sample of strictly older timestamp survives: a discarded
anomalous sample is at least as old as every survivor. -/
theorem C3_retention_amended (st : MonitorState) (c : String) (rt : ℚ) (ph : String)
    (now : Nat) (mem : Option ℚ) (cs : String) (a b : Metric)
    (hcap : (st.metrics ++ [mkMetric st c rt ph now mem cs]).length > maxMetrics)
    (hratio : maxMetrics * 3 / 10 <
      ((st.metrics ++ [mkMetric st c rt ph now mem cs]).filter (fun m => m.isSlowRender)).length)
    (ha : a ∈ st.metrics ++ [mkMetric st c rt ph now mem cs])
    (haS : a.isSlowRender = true)
    (hb : b ∈ st.metrics ++ [mkMetric st c rt ph now mem cs])
    (hbS : b.isSlowRender = false)
    (haOut : a ∉ (logRender st c rt ph now mem cs).metrics)
    (hbIn : b ∈ (logRender st c rt ph now mem cs).metrics) :
    a.timestamp ≤ b.timestamp := by
  rw [logRender_metrics, if_pos hcap] at haOut hbIn
  exact evict_retention _ a b ha haS hb hbS haOut hbIn

/-- C3 witness: at the concrete eviction of `C3_retention_cex`, the
discarded anomalous sample is no newer than the surviving non-anomalous
sample. -/
theorem C3_retention_amended_witness : c3a.timestamp ≤ c3New.timestamp :=
  C3_retention_amended c3St "B" 1 "p" 0 none "cs" c3a c3New (by decide) (by decide)
    (by decide) rfl (by decide) rfl (by decide) (by decide)

end PerfMon

namespace PerfMon

/-! Grouping lemmas: the stats fold seen as per-subject filters. -/

theorem mem_dedupKeepFirst {α : Type} [DecidableEq α] (a : α) (l : List α) :
    a ∈ dedupKeepFirst l ↔ a ∈ l := by
  induction l with
  | nil => simp [dedupKeepFirst]
  | cons b l ih =>
      simp only [dedupKeepFirst, List.mem_cons, List.mem_filter, decide_eq_true_eq]
      constructor
      · rintro (h | ⟨h1, h2⟩)
        · exact Or.inl h
        · exact Or.inr (ih.mp h1)
      · rintro (h | h)
        · exact Or.inl h
        · by_cases hab : a = b
          · exact Or.inl hab
          · exact Or.inr ⟨ih.mpr h, hab⟩

theorem dedupKeepFirst_append_singleton {α : Type} [DecidableEq α] (l : List α) (y : α) :
    dedupKeepFirst (l ++ [y]) =
      if y ∈ l then dedupKeepFirst l else dedupKeepFirst l ++ [y] := by
  induction l with
  | nil => simp [dedupKeepFirst]
  | cons b l ih =>
      show b :: (dedupKeepFirst (l ++ [y])).filter (fun x => decide (x ≠ b)) =
        if y ∈ b :: l then
          b :: (dedupKeepFirst l).filter (fun x => decide (x ≠ b))
        else (b :: (dedupKeepFirst l).filter (fun x => decide (x ≠ b))) ++ [y]
      rw [ih]
      by_cases hyl : y ∈ l
      · rw [if_pos hyl, if_pos (List.mem_cons_of_mem b hyl)]
      · by_cases hyb : y = b
        · subst hyb
          rw [if_neg hyl, if_pos (List.mem_cons_self y l), List.filter_append]
          simp
        · rw [if_neg hyl, if_neg (by simp [hyb, hyl]), List.filter_append]
          simp [hyb]

theorem filter_subj_eq_nil (l : List Metric) (c : String)
    (h : c ∉ l.map (fun m => m.componentName)) :
    l.filter (fun m => m.componentName == c) = [] := by
  rw [List.filter_eq_nil_iff]
  intro m hm
  simp only [beq_iff_eq]
  intro hc
  exact h (List.mem_map.mpr ⟨m, hm, hc⟩)

theorem sumDur_append_singleton (l : List Metric) (m : Metric) (c : String) :
    sumDur (l ++ [m]) c = sumDur l c + if m.componentName = c then m.renderTime else 0 := by
  by_cases h : m.componentName = c <;>
    simp [sumDur, List.filter_append, h]

theorem cntSubj_append_singleton (l : List Metric) (m : Metric) (c : String) :
    cntSubj (l ++ [m]) c = cntSubj l c + if m.componentName = c then 1 else 0 := by
  by_cases h : m.componentName = c <;>
    simp [cntSubj, List.filter_append, h]

theorem sumDur_not_mem (l : List Metric) (c : String)
    (h : c ∉ l.map (fun m => m.componentName)) : sumDur l c = 0 := by
  unfold sumDur
  rw [filter_subj_eq_nil l c h]
  rfl

theorem cntSubj_not_mem (l : List Metric) (c : String)
    (h : c ∉ l.map (fun m => m.componentName)) : cntSubj l c = 0 := by
  unfold cntSubj
  rw [filter_subj_eq_nil l c h]
  rfl

theorem any_statsOfSpec (l : List Metric) (s : String) :
    ((statsOfSpec l).any (fun p => p.1 == s) = true) ↔
      s ∈ l.map (fun m => m.componentName) := by
  unfold statsOfSpec
  rw [List.any_eq_true]
  constructor
  · rintro ⟨p, hp, hps⟩
    rcases List.mem_map.mp hp with ⟨c, hc, rfl⟩
    have hcs : c = s := by simpa using hps
    subst hcs
    exact (mem_dedupKeepFirst _ _).mp hc
  · intro hs
    refine ⟨(s, sumDur l s, cntSubj l s), ?_, by simp⟩
    exact List.mem_map.mpr ⟨s, (mem_dedupKeepFirst _ _).mpr hs, rfl⟩

theorem componentStats_eq_statsOfSpec (l : List Metric) :
    componentStats l = statsOfSpec l := by
  unfold componentStats
  induction l using List.reverseRecOn with
  | nil => rfl
  | append_singleton l m ih =>
      rw [List.foldl_append, List.foldl_cons, List.foldl_nil, ih]
      unfold statStep
      by_cases hmem : m.componentName ∈ l.map (fun x => x.componentName)
      · rw [if_pos ((any_statsOfSpec l m.componentName).mpr hmem)]
        unfold statsOfSpec
        rw [List.map_append, List.map_cons, List.map_nil,
          dedupKeepFirst_append_singleton, if_pos hmem, List.map_map]
        apply List.map_congr_left
        intro c hc
        by_cases hcm : c = m.componentName
        · subst hcm
          simp [Function.comp, sumDur_append_singleton, cntSubj_append_singleton]
        · simp [Function.comp, sumDur_append_singleton, cntSubj_append_singleton,
            hcm, Ne.symm hcm]
      · rw [if_neg (fun hc => hmem ((any_statsOfSpec l m.componentName).mp hc))]
        unfold statsOfSpec
        rw [List.map_append, List.map_cons, List.map_nil,
          dedupKeepFirst_append_singleton, if_neg hmem, List.map_append]
        congr 1
        · apply List.map_congr_left
          intro c hc
          have hcl : c ∈ l.map (fun x => x.componentName) := (mem_dedupKeepFirst _ _).mp hc
          have hcm : ¬ (m.componentName = c) := fun h => hmem (h ▸ hcl)
          simp [sumDur_append_singleton, cntSubj_append_singleton, hcm]
        · simp [sumDur_append_singleton, cntSubj_append_singleton,
            sumDur_not_mem l _ hmem, cntSubj_not_mem l _ hmem]

theorem hotspotsOf_eq_hotspotsClaim (l : List Metric) : hotspotsOf l = hotspotsClaim l := by
  unfold hotspotsOf hotspotsClaim
  rw [componentStats_eq_statsOfSpec]
  unfold statsOfSpec
  rw [List.map_map]
  rfl

end PerfMon

namespace PerfMon

/-- C6: the hotspots are the per-subject groups with average duration and
sample count, stable-sorted descending by average duration so that ties
keep first-occurrence order, truncated to the top 5; on a store with
subjects A (avg 30, 2 samples), C (avg 25, 1 sample, first occurring
before B) and B (avg 25, 10 samples), the result order is A, C, B. -/
theorem C6_hotspot_ranking :
    (∀ st : MonitorState, (getInsights st).componentHotspots = hotspotsClaim st.metrics) ∧
    (getInsights c6St).componentHotspots =
      [{ component := "A", averageTime := 30, count := 2 },
       { component := "C", averageTime := 25, count := 1 },
       { component := "B", averageTime := 25, count := 10 }] := by
  constructor
  · intro st
    exact hotspotsOf_eq_hotspotsClaim st.metrics
  · show hotspotsOf c6Metrics = _
    norm_num +decide [hotspotsOf, componentStats, c6Metrics, sampleM, statStep,
      List.insertionSort, List.orderedInsert, List.foldl_cons, List.foldl_nil]

end PerfMon

namespace PerfMon

/-- C7: the recommendation list is produced by exactly four independent
rules evaluated in the fixed order anomaly-ratio, specific-hotspot (fires
iff the hotspots are non-empty and the top average exceeds 20), memory-leak
(fires iff the trend is increasing) and general-performance (fires iff the
average duration exceeds 10), each contributing zero or one entry; on a
state where all four fire, the list has exactly those 4 entries in that
order. -/
theorem C7_recommendations :
    (∀ st : MonitorState, (getInsights st).recommendations = recsClaim (getInsights st)) ∧
    (getInsights c7St).recommendations = [recAnomaly, recHotspot "X", recMemory, recGeneral] ∧
    ((getInsights c7St).recommendations).length = 4 := by
  have h2 : (getInsights c7St).recommendations =
      [recAnomaly, recHotspot "X", recMemory, recGeneral] := by
    norm_num +decide [getInsights, c7St, sampleM, hotspotsOf, componentStats, statStep,
      memoryTrendOf, takeLast, List.insertionSort, List.orderedInsert,
      List.foldl_cons, List.foldl_nil]
  exact ⟨fun st => rfl, h2, by rw [h2]; rfl⟩

/-- C5: with fewer than 10 readings the memory trend is stable; with at
least 10 readings the trend compares the mean of the most recent 5
readings against the mean of the preceding 5 with strict inequalities at
factors 1.1 and 0.9 (usage values are byte counts, hence assumed
non-negative), so a recent mean of exactly 1.1 times the older mean is
stable, strictly above is increasing, strictly below 0.9 times is
decreasing. -/
theorem C5_memory_trend (st : MonitorState)
    (hpos : ∀ r ∈ st.memoryHistory, 0 ≤ r.usage) :
    (st.memoryHistory.length < 10 → (getInsights st).memoryTrend = MemoryTrend.stable) ∧
    (10 ≤ st.memoryHistory.length →
      (((getInsights st).memoryTrend = MemoryTrend.increasing) ↔
        meanQ (recentUsages st.memoryHistory) >
          (11 / 10) * meanQ (olderUsages st.memoryHistory)) ∧
      (((getInsights st).memoryTrend = MemoryTrend.decreasing) ↔
        meanQ (recentUsages st.memoryHistory) <
          (9 / 10) * meanQ (olderUsages st.memoryHistory)) ∧
      (((getInsights st).memoryTrend = MemoryTrend.stable) ↔
        ((9 / 10) * meanQ (olderUsages st.memoryHistory) ≤
            meanQ (recentUsages st.memoryHistory) ∧
          meanQ (recentUsages st.memoryHistory) ≤
            (11 / 10) * meanQ (olderUsages st.memoryHistory)))) := by
  have hproj : (getInsights st).memoryTrend = memoryTrendOf st.memoryHistory := rfl
  constructor
  · intro hlt
    rw [hproj]
    unfold memoryTrendOf
    rw [if_neg (by omega)]
  · intro hge
    have hml : memoryTrendOf st.memoryHistory =
        (if meanQ (recentUsages st.memoryHistory) >
            meanQ (olderUsages st.memoryHistory) * (11 / 10) then MemoryTrend.increasing
         else if meanQ (recentUsages st.memoryHistory) <
            meanQ (olderUsages st.memoryHistory) * (9 / 10) then MemoryTrend.decreasing
         else MemoryTrend.stable) := by
      unfold memoryTrendOf
      rw [if_pos hge]
      simp only [meanQ, recentUsages, olderUsages, List.length_map]
    have hoa : 0 ≤ meanQ (olderUsages st.memoryHistory) := by
      unfold meanQ
      apply div_nonneg
      · apply List.sum_nonneg
        intro x hx
        rcases List.mem_map.mp hx with ⟨r, hr, rfl⟩
        exact hpos r (List.drop_subset _ _ (List.take_subset _ _ hr))
      · exact Nat.cast_nonneg _
    rw [hproj, hml]
    set ra := meanQ (recentUsages st.memoryHistory) with hra
    set oa := meanQ (olderUsages st.memoryHistory) with hoadef
    by_cases h1 : ra > oa * (11 / 10)
    · rw [if_pos h1]
      refine ⟨⟨fun _ => by linarith, fun _ => rfl⟩,
        ⟨fun hc => by simp at hc, fun hlt => ?_⟩,
        ⟨fun hc => by simp at hc, fun hc => ?_⟩⟩
      · exfalso; linarith
      · exfalso; rcases hc with ⟨hc1, hc2⟩; linarith
    · by_cases h2 : ra < oa * (9 / 10)
      · rw [if_neg h1, if_pos h2]
        push_neg at h1
        refine ⟨⟨fun hc => by simp at hc, fun hgt => ?_⟩,
          ⟨fun _ => by linarith, fun _ => rfl⟩,
          ⟨fun hc => by simp at hc, fun hc => ?_⟩⟩
        · exfalso; linarith
        · exfalso; rcases hc with ⟨hc1, hc2⟩; linarith
      · rw [if_neg h1, if_neg h2]
        push_neg at h1 h2
        refine ⟨⟨fun hc => by simp at hc, fun hgt => ?_⟩,
          ⟨fun hc => by simp at hc, fun hlt => ?_⟩,
          ⟨fun _ => ⟨by linarith, by linarith⟩, fun _ => rfl⟩⟩
        · exfalso; linarith
        · exfalso; linarith

/-- C5 witness: ten readings whose recent mean is exactly 1.1 times the
older mean yield a stable trend, and 1.11 times yields increasing. -/
theorem C5_memory_trend_witness :
    (getInsights c5StStable).memoryTrend = MemoryTrend.stable ∧
    (getInsights c5StInc).memoryTrend = MemoryTrend.increasing := by
  constructor
  · exact (((C5_memory_trend c5StStable (by decide)).2 (by decide)).2.2).mpr
      (by constructor <;>
        norm_num [meanQ, recentUsages, olderUsages, takeLast, c5StStable, c5HistStable])
  · exact (((C5_memory_trend c5StInc (by decide)).2 (by decide)).1).mpr
      (by norm_num [meanQ, recentUsages, olderUsages, takeLast, c5StInc, c5HistInc])

end PerfMon
